import Mathlib

/-
Verification development for the `turbo` library (Go): a Turbolinks-style
middleware plus a small layout/content template-composition engine.

The Go source (turbo.go) is embedded shallowly:

* `html/template` evaluation is modelled by a small piece language
  (`Piece`) that covers exactly the constructs the library's templates
  use: literal text, the data reference `{{.}}`, a field access
  `{{.F}}`, and the two helper calls `{{yield}}` and the
  page-override lookup helper bound by `addLayoutFuncs`.  A compiled
  template is its list of pieces; a registry is a name-to-template map.
* The `http.ResponseWriter` side is modelled by an explicit response
  state (`RespState`) and handlers are traces of writer operations
  (`RWOp`), interpreted either directly against the response state or
  through the buffering `responseStaller`.
* Fallible operations return `Except`/`Option`; a Go `panic` (as in
  `template.Must`) is modelled as `Option.none`, aborting the whole
  computation in which it occurs.
-/

namespace Turbo

/-! ### Header maps

Go's `http.Header` is a multimap.  The source only uses the canonical
spellings of each key, so keys are compared literally.  `Get` returns the
first value for the key (or the empty string), `Set` replaces every value
for the key by a single one, `Add` appends, `Del` removes the key. -/

abbrev HeaderMap := List (String × String)

def hGet (hs : HeaderMap) (k : String) : String :=
  ((hs.find? (fun p => p.1 == k)).map Prod.snd).getD ""

def hSet (hs : HeaderMap) (k v : String) : HeaderMap :=
  (k, v) :: hs.filter (fun p => p.1 != k)

def hAdd (hs : HeaderMap) (k v : String) : HeaderMap :=
  hs ++ [(k, v)]

def hDel (hs : HeaderMap) (k : String) : HeaderMap :=
  hs.filter (fun p => p.1 != k)

/-! ### Escaping

`htmlEscape` models html/template's contextual escaping of an
interpolation in ordinary HTML text context (the five HTML-special
characters).  `JSEscapeString` models `template.JSEscapeString` on the
characters that can occur in a redirect location: the seven specials are
escaped exactly as in Go, control characters become a lower-case
`\u00XX` escape pair, and other characters pass through (Go additionally
escapes non-printable runes above U+007F, which cannot occur in an HTTP
`Location` value). -/

def htmlEscapeChar (c : Char) : String :=
  if c = '<' then "&lt;"
  else if c = '>' then "&gt;"
  else if c = '&' then "&amp;"
  else if c = Char.ofNat 39 then "&#39;"
  else if c = '"' then "&#34;"
  else String.singleton c

def htmlEscape (s : String) : String :=
  String.join (s.data.map htmlEscapeChar)

def hexUpper (n : Nat) : Char :=
  "0123456789ABCDEF".data.getD n '0'

def jsEscapeChar (c : Char) : String :=
  if c = '\\' then "\\\\"
  else if c = Char.ofNat 39 then "\\" ++ String.singleton (Char.ofNat 39)
  else if c = '"' then "\\\""
  else if c = '<' then "\\u003C"
  else if c = '>' then "\\u003E"
  else if c = '&' then "\\u0026"
  else if c = '=' then "\\u003D"
  else if c.toNat < 32 then
    "\\u00" ++ String.singleton (hexUpper (c.toNat / 16)) ++ String.singleton (hexUpper (c.toNat % 16))
  else String.singleton c

def JSEscapeString (s : String) : String :=
  String.join (s.data.map jsEscapeChar)

/-! ### Template model

`Piece.text` is literal template text, `Piece.dataRef` is `{{.}}`,
`Piece.field f` is `{{.f}}`, `Piece.yield` is `{{yield}}` and
`Piece.part b` is the page-override partial helper applied to the base
name `b`.  A data binding is either a string or a struct-like record of
named fields. -/

inductive Piece where
  | text (s : String)
  | dataRef
  | field (f : String)
  | yield
  | part (base : String)
deriving Repr, DecidableEq

abbrev Template := List Piece

abbrev Registry := List (String × Template)

def lookupT (reg : Registry) (name : String) : Option Template :=
  (reg.find? (fun p => p.1 == name)).map Prod.snd

inductive TData where
  | str (s : String)
  | obj (fields : List (String × TData))
deriving Repr

/-- How `{{.}}` prints a binding. A string binding prints as itself (Go
prints a struct with fmt's default representation; no template in this
development interpolates `\x7b\x7bdot\x7d\x7d` on a non-string binding, so the exact
text for the struct case is immaterial). -/
def printData : TData → String
  | .str s => s
  | .obj _ => ""

def lkField (fields : List (String × TData)) (f : String) : Option TData :=
  ((fields.find? (fun p => p.1 == f)).map Prod.snd)

/-! ### Template evaluation errors

Error strings follow the shape of Go's `ExecError` messages (line/column
information elided): a failure while executing template `t` reads
`template: t: executing "t": <reason>`, and an error returned by a bound
helper function is wrapped by the calling template as
`error calling <fn>: <inner message>`.  Executing an undefined name
yields html/template's undefined-template error. -/

def undefErrMsg (name : String) : String :=
  "html/template: \"" ++ name ++ "\" is undefined"

def execErrMsg (t reason : String) : String :=
  "template: " ++ t ++ ": executing \"" ++ t ++ "\": " ++ reason

def funcErrMsg (t fn inner : String) : String :=
  execErrMsg t ("error calling " ++ fn ++ ": " ++ inner)

/-- Reason text for a missing-field evaluation error (Go's message reads
`cannot evaluate field <f>`, spelled there with an apostrophe). -/
def fieldErrReason (f : String) : String :=
  "cannot evaluate field " ++ f

/-! ### Template evaluation

`addLayoutFuncs` rebinds the `yield`/`partial` helpers for one render;
`LayoutEnv` carries the page (content) template name those closures
capture.  `Option.none` stands for the registry's default helper set
(`helperFuncs` in the source), whose `yield` and `partial` return the
fixed "called with no layout defined" errors.

Nested template execution (inside `yield` and the partial helper) goes
through the `nest` callback; `evalTpl` ties the knot with a fuel
argument so that evaluation is total even on cyclic templates (Go would
recurse forever there; no claim exercises that situation). -/

structure LayoutEnv where
  page : String
deriving Repr, DecidableEq

def evalPiecesWith (reg : Registry) (env : Option LayoutEnv) (binding : TData)
    (tname : String) (nest : String → Except String String) :
    List Piece → Except String String
  | [] => .ok ""
  | p :: rest =>
    let head : Except String String :=
      match p with
      | .text s => .ok s
      | .dataRef => .ok (htmlEscape (printData binding))
      | .field f =>
        match binding with
        | .str _ => .error (execErrMsg tname (fieldErrReason f))
        | .obj fields =>
          match lkField fields f with
          | some v => .ok (htmlEscape (printData v))
          | none => .error (execErrMsg tname (fieldErrReason f))
      | .yield =>
        match env with
        | none => .error (funcErrMsg tname "yield" "yield called with no layout defined")
        | some e =>
          match nest e.page with
          | .ok s => .ok s
          | .error err => .error (funcErrMsg tname "yield" err)
      | .part b =>
        match env with
        | none => .error (funcErrMsg tname "partial" "partial called with no layout defined")
        | some e =>
          let full := b ++ "-" ++ e.page
          let chosen := if (lookupT reg full).isSome then full else b
          if (lookupT reg chosen).isSome then
            match nest chosen with
            | .ok s => .ok s
            | .error err => .error (funcErrMsg tname "partial" err)
          else .ok ""
    match head with
    | .error e => .error e
    | .ok s =>
      match evalPiecesWith reg env binding tname nest rest with
      | .error e => .error e
      | .ok srest => .ok (s ++ srest)

/-- One `ExecuteTemplate` call: look the name up in the registry and
evaluate its pieces; an undefined name is an error.  `fuel` bounds the
depth of nested template executions. -/
def evalTpl (reg : Registry) (env : Option LayoutEnv) (binding : TData) :
    Nat → String → Except String String
  | 0, _ => .error "turbo: template recursion limit exceeded"
  | fuel + 1, name =>
    match lookupT reg name with
    | none => .error (undefErrMsg name)
    | some pieces => evalPiecesWith reg env binding name (evalTpl reg env binding fuel) pieces

/-! ### Render engine -/

/-- The render configuration: the compiled template registry together
with `Options.Layout` (empty string means no layout). -/
structure RenderCfg where
  reg : Registry
  layout : String

/-- The shared body of `Render.HTML` and `Render.String`: if a layout is
configured and we are not rendering a partial, bind the layout helper
closures (which `addLayoutFuncs` only does when the content template
exists — its final `Lookup(name)` guard) and execute the layout;
otherwise execute `name` directly with the default helper set. -/
def renderBody (fuel : Nat) (cfg : RenderCfg) (name : String) (binding : TData)
    (isPart : Bool) : Except String String :=
  if cfg.layout != "" && !isPart then
    let env : Option LayoutEnv :=
      if (lookupT cfg.reg name).isSome then some ⟨name⟩ else none
    evalTpl cfg.reg env binding fuel cfg.layout
  else
    evalTpl cfg.reg none binding fuel name

/-- The Go methods take the partial flag as a variadic `...bool`; the
loop `for _, b := range partial` keeps the last element (default
`false`). -/
def lastFlag (flags : List Bool) : Bool :=
  flags.foldl (fun _ b => b) false

/-- `Render.String`: render to a string (named `StringRender` here
because the source's method name `String` is Lean's string type). -/
def StringRender (fuel : Nat) (cfg : RenderCfg) (name : String) (binding : TData)
    (flags : List Bool) : Except String String :=
  renderBody fuel cfg name binding (lastFlag flags)

/-! ### HTTP model

A cookie is kept structured (Go serializes it into a `Set-Cookie` header
line via `http.SetCookie`; the attributes below are the ones the source
ever sets).  `expires` is a Unix timestamp, `0` meaning unset. -/

structure Cookie where
  name : String
  value : String
  path : String := ""
  maxAge : Int := 0
  expires : Int := 0
  httpOnly : Bool := false
  secure : Bool := false
deriving Repr, DecidableEq

structure Request where
  method : String
  headers : HeaderMap
  cookies : List (String × String)
  tls : Bool
deriving Repr

/-- `http.Request.Cookie`: the first cookie of the given name, or an
error (modelled as `none`) when absent. -/
def reqCookie (r : Request) (name : String) : Option String :=
  (r.cookies.find? (fun p => p.1 == name)).map Prod.snd

/-- The state of the real response sink: its (still mutable) header map,
the `Set-Cookie` lines (kept structured), the status line actually sent
(`none` until `WriteHeader` runs), and the body bytes written. -/
structure RespState where
  headers : HeaderMap
  setCookies : List Cookie
  sentStatus : Option Nat
  body : String
deriving Repr, DecidableEq

/-- A handler's interaction with its `http.ResponseWriter`, as a trace
of operations.  `setCookie` is `http.SetCookie` (an `Add` of a
serialized `Set-Cookie` header). -/
inductive RWOp where
  | setHeader (k v : String)
  | addHeader (k v : String)
  | delHeader (k : String)
  | writeHeader (code : Nat)
  | write (b : String)
  | setCookie (c : Cookie)
deriving Repr, DecidableEq

/-- Direct (unwrapped) `http.ResponseWriter` semantics: the first
`WriteHeader` wins, and a `Write` before any `WriteHeader` sends an
implicit 200. -/
def dApply (w : RespState) : RWOp → RespState
  | .setHeader k v => { w with headers := hSet w.headers k v }
  | .addHeader k v => { w with headers := hAdd w.headers k v }
  | .delHeader k => { w with headers := hDel w.headers k }
  | .writeHeader c => if w.sentStatus.isSome then w else { w with sentStatus := some c }
  | .write b =>
    let w' := if w.sentStatus.isSome then w else { w with sentStatus := some 200 }
    { w' with body := w'.body ++ b }
  | .setCookie c => { w with setCookies := w.setCookies ++ [c] }

def dRun (w : RespState) (ops : List RWOp) : RespState :=
  ops.foldl dApply w

/-- `responseStaller`: `Header()` is the underlying writer's live header
map, `WriteHeader` only records the code (initial value 0, last call
wins), `Write` appends to an in-memory buffer. -/
structure StallerSt where
  w : RespState
  code : Nat
  buf : String
deriving Repr, DecidableEq

def stallerInit (w : RespState) : StallerSt :=
  ⟨w, 0, ""⟩

def sApply (s : StallerSt) : RWOp → StallerSt
  | .setHeader k v => { s with w := { s.w with headers := hSet s.w.headers k v } }
  | .addHeader k v => { s with w := { s.w with headers := hAdd s.w.headers k v } }
  | .delHeader k => { s with w := { s.w with headers := hDel s.w.headers k } }
  | .writeHeader c => { s with code := c }
  | .write b => { s with buf := s.buf ++ b }
  | .setCookie c => { s with w := { s.w with setCookies := s.w.setCookies ++ [c] } }

def sRun (s : StallerSt) (ops : List RWOp) : StallerSt :=
  ops.foldl sApply s

/-- `SendResponse`: `rw.w.WriteHeader(rw.code)` followed by copying the
buffered body to the underlying writer. -/
def SendResponse (s : StallerSt) : RespState :=
  let w := if s.w.sentStatus.isSome then s.w else { s.w with sentStatus := some s.code }
  { w with body := w.body ++ s.buf }

/-- `http.Error(w, msg, code)`: delete `Content-Length`, set the plain
text content type and no-sniff headers, write the status, print the
message with a trailing newline. -/
def httpError (w : RespState) (msg : String) (code : Nat) : RespState :=
  let hs := hSet (hSet (hDel w.headers "Content-Length") "Content-Type" "text/plain; charset=utf-8") "X-Content-Type-Options" "nosniff"
  let w1 := { w with headers := hs }
  dApply (dApply w1 (.writeHeader code)) (.write (msg ++ "\n"))

/-- `Render.HTML`: execute to an intermediate buffer; on error, reply
through `http.Error` with status 500 and return the error without ever
writing the caller's `status`; on success write `status` and then the
buffer. -/
def HTML (fuel : Nat) (cfg : RenderCfg) (w : RespState) (status : Nat) (name : String)
    (binding : TData) (flags : List Bool) : RespState × Option String :=
  match renderBody fuel cfg name binding (lastFlag flags) with
  | .error e => (httpError w e 500, some e)
  | .ok out => (dApply (dApply w (.writeHeader status)) (.write out), none)

/-! ### The Turbolinks redirect bridge -/

def TurbolinksReferrer : String := "Turbolinks-Referrer"

def TurbolinksCookie : String := "_turbolinks_location"

def DefaultFlashCookieName : String := "_turbo_message"

/-- `strings.ToLower` on the values that can appear in a forwarded-proto
header (ASCII; Go also lower-cases non-ASCII letters, which cannot occur
in `http`/`https` tokens). -/
def asciiToLower (s : String) : String :=
  String.mk (s.data.map Char.toLower)

/-- `IsTLS`: the request arrived on a TLS connection, or declares TLS
termination through `X-Forwarded-Proto` (compared case-insensitively by
`strings.ToLower`). -/
def IsTLS (r : Request) : Bool :=
  r.tls || asciiToLower (hGet r.headers "X-Forwarded-Proto") == "https"

/-- The body of the POST-redirect conversion: clear the client cache and
visit the JS-escaped location with an advance action. -/
def turbolinksJS (location : String) : String :=
  "Turbolinks.clearCache();Turbolinks.visit(\"" ++ JSEscapeString location ++ "\", \x7baction: \"advance\"\x7d);"

/-- The cookie written when a marker-bearing non-POST request presents
the navigation cookie: `r.Cookie` yields only the name/value pair, and
the handler then sets `MaxAge = -1` before re-sending it. -/
def expiredNavCookie (v : String) : Cookie :=
  { name := TurbolinksCookie, value := v, maxAge := -1 }

/-- The fresh navigation cookie set after a redirecting handler. -/
def navCookie (location : String) (sec : Bool) : Cookie :=
  { name := TurbolinksCookie, value := location, path := "/", httpOnly := true, secure := sec }

/-- The POST-path rewrite of the buffered response when the handler set
a `Location` header: force `text/javascript`/`nosniff`, record status
200, drop `Location`, and append the visit script to the buffer. -/
def postRewrite (rs : StallerSt) : StallerSt :=
  let location := hGet rs.w.headers "Location"
  if location != "" then
    let rs1 := sApply rs (.setHeader "Content-Type" "text/javascript")
    let rs2 := sApply rs1 (.setHeader "X-Content-Type-Options" "nosniff")
    let rs3 := sApply rs2 (.writeHeader 200)
    let rs4 := sApply rs3 (.delHeader "Location")
    sApply rs4 (.write (turbolinksJS location))
  else rs

/-- The non-POST pre-step: if the request carries the navigation cookie,
advertise its value in `Turbolinks-Location` and expire the cookie. -/
def navCookieCheck (r : Request) (w : RespState) : RespState :=
  match reqCookie r TurbolinksCookie with
  | some v =>
    let w1 := { w with headers := hSet w.headers "Turbolinks-Location" v }
    { w1 with setCookies := w1.setCookies ++ [expiredNavCookie v] }
  | none => w

/-- The non-POST post-step: if the handler set a `Location` header, set
a fresh navigation cookie carrying it. -/
def navCookieSet (r : Request) (rs : StallerSt) : StallerSt :=
  let location := hGet rs.w.headers "Location"
  if location != "" then
    sApply rs (.setCookie (navCookie location (IsTLS r)))
  else rs

/-- `Handler`: the Turbolinks middleware.  A handler is its trace of
response-writer operations, as a function of the request. -/
def Handler (h : Request → List RWOp) (r : Request) (w : RespState) : RespState :=
  if hGet r.headers TurbolinksReferrer == "" then
    dRun w (h r)
  else if r.method == "POST" then
    SendResponse (postRewrite (sRun (stallerInit w) (h r)))
  else
    SendResponse (navCookieSet r (sRun (stallerInit (navCookieCheck r w)) (h r)))

/-! ### Flash messages

`base64.URLEncoding` (padded URL-safe base64) over the bytes of the
message; a Go string is a byte sequence, modelled as a `List Nat` of
byte values. -/

def b64Alphabet : List Char :=
  "ABCDEFGHIJKLMNOPQRSTUVWXYZabcdefghijklmnopqrstuvwxyz0123456789-_".data

def b64Char (n : Nat) : Char :=
  b64Alphabet.getD n 'A'

def b64Index (c : Char) : Option Nat :=
  b64Alphabet.findIdx? (fun d => d == c)

/-- Encode three input bytes into four alphabet characters at a time,
padding the final one- or two-byte group with `=`. -/
def b64EncodeGroups : List Nat → List Char
  | a :: b :: c :: rest =>
    let n := a * 65536 + b * 256 + c
    b64Char (n / 262144 % 64) :: b64Char (n / 4096 % 64) :: b64Char (n / 64 % 64) ::
      b64Char (n % 64) :: b64EncodeGroups rest
  | [a, b] =>
    let n := a * 65536 + b * 256
    [b64Char (n / 262144 % 64), b64Char (n / 4096 % 64), b64Char (n / 64 % 64), '=']
  | [a] =>
    let n := a * 65536
    [b64Char (n / 262144 % 64), b64Char (n / 4096 % 64), '=', '=']
  | [] => []

def b64EncodeString (bs : List Nat) : String :=
  String.mk (b64EncodeGroups bs)

/-- Decode four characters into three bytes at a time; `=` padding ends
the input.  Any malformed input decodes to `none`. -/
def b64DecodeGroups : List Char → Option (List Nat)
  | [] => some []
  | c1 :: c2 :: c3 :: c4 :: rest =>
    match b64Index c1, b64Index c2 with
    | some n1, some n2 =>
      if c3 = '=' then
        if c4 = '=' && rest.isEmpty then some [n1 * 4 + n2 / 16] else none
      else
        match b64Index c3 with
        | some n3 =>
          if c4 = '=' then
            if rest.isEmpty then some [n1 * 4 + n2 / 16, n2 % 16 * 16 + n3 / 4] else none
          else
            match b64Index c4 with
            | some n4 =>
              match b64DecodeGroups rest with
              | some bs => some ((n1 * 4 + n2 / 16) :: (n2 % 16 * 16 + n3 / 4) :: (n3 % 4 * 64 + n4) :: bs)
              | none => none
            | none => none
        | none => none
    | _, _ => none
  | _ => none

def b64DecodeString (s : String) : Option (List Nat) :=
  b64DecodeGroups s.data

/-- `Render.Flash`: set the flash cookie, its value the base64 of the
message bytes (no other attributes). -/
def Flash (w : RespState) (message : List Nat) : RespState :=
  { w with setCookies := w.setCookies ++ [{ name := DefaultFlashCookieName, value := b64EncodeString message }] }

/-- The flash cookie as `GetFlash` re-sends it: the parsed name/value
pair with `MaxAge = -1` and `Expires = time.Unix(1, 0)`. -/
def expiredFlashCookie (v : String) : Cookie :=
  { name := DefaultFlashCookieName, value := v, maxAge := -1, expires := 1 }

/-- `Render.GetFlash`: a missing cookie or an undecodable value yields
the empty message (and leaves the response alone); otherwise the cookie
is immediately expired on the response and the decoded message
returned. -/
def GetFlash (w : RespState) (r : Request) : RespState × List Nat :=
  match reqCookie r DefaultFlashCookieName with
  | none => (w, [])
  | some v =>
    match b64DecodeString v with
    | none => (w, [])
    | some msg => ({ w with setCookies := w.setCookies ++ [expiredFlashCookie v] }, msg)

/-! ### Registry compilation

`compileTemplatesFromDir` walks the template directory; the walk itself
and `html/template` parsing are external collaborators, so the source
tree appears as a list of (slash-separated relative path, file source)
pairs and the parser as a function `String → Option Template` (`none`
is a parse failure).  `template.Must` turns a parse failure into a
panic — "We don't want any silent server starts" — modelled as the
whole construction returning `none`. -/

/-- `filepath.Ext` on a slash-separated relative path: the suffix from
the final dot of the final path element, empty when that element has no
dot (the source guards this with `strings.Index(rel, ".") != -1`, which
is implied whenever the final element has a dot and changes nothing
otherwise, since `Ext` is empty either way). -/
def fileExt (rel : String) : String :=
  let baseRev := rel.data.reverse.takeWhile (fun c => c != '/')
  if baseRev.contains '.' then
    "." ++ String.mk ((baseRev.takeWhile (fun c => c != '.')).reverse)
  else ""

/-- The registry name of a template file: its relative path with the
extension stripped. -/
def tplName (rel : String) : String :=
  String.mk (rel.data.take (rel.data.length - (fileExt rel).data.length))

/-- One step of the walk: skip files whose extension is not allowed;
parse the rest, a later file of the same name replacing an earlier one
(`template.New` on an existing name), and a parse failure aborting
everything. -/
def compileStep (parseT : String → Option Template) (exts : List String)
    (acc : Option Registry) (file : String × String) : Option Registry :=
  match acc with
  | none => none
  | some reg =>
    if exts.contains (fileExt file.1) then
      match parseT file.2 with
      | none => none
      | some t => some ((tplName file.1, t) :: reg.filter (fun p => p.1 != tplName file.1))
    else some reg

def compileTemplatesFromDir (parseT : String → Option Template) (exts : List String)
    (files : List (String × String)) : Option Registry :=
  files.foldl (compileStep parseT exts) (some [])

/-- `Render.HTML` in development mode (`IsDevelopment`): recompile the
whole registry from the source tree before rendering; a compilation
panic aborts the call before any template is executed. -/
def HTMLDev (parseT : String → Option Template) (exts : List String)
    (files : List (String × String)) (layout : String) (fuel : Nat) (w : RespState)
    (status : Nat) (name : String) (binding : TData) (flags : List Bool) :
    Option (RespState × Option String) :=
  match compileTemplatesFromDir parseT exts files with
  | none => none
  | some reg => some (HTML fuel ⟨reg, layout⟩ w status name binding flags)


/-! ### Concrete fixtures used by the witnesses -/

/-- Whether a writer operation mutates the header key `k`. -/
def touchesHeader (k : String) : RWOp → Bool
  | .setHeader k2 _ => k2 == k
  | .addHeader k2 _ => k2 == k
  | .delHeader k2 => k2 == k
  | _ => false

/-- The status the staller has recorded after a trace: the last
`WriteHeader` value, folded over the initial value. -/
def lastCodeFrom (c0 : Nat) (ops : List RWOp) : Nat :=
  ops.foldl (fun c op => match op with | .writeHeader n => n | _ => c) c0

def lastCode (ops : List RWOp) : Nat :=
  lastCodeFrom 0 ops

/-- A template that calls no helper (no `yield`, no partial lookup):
its evaluation depends neither on the bound layout closures nor on the
nested-execution callback. -/
def noHelper (t : Template) : Bool :=
  t.all (fun p => match p with | .yield => false | .part _ => false | _ => true)

/-- The test fixture `fixtures/basic`: a layout rendering `head`, then
the yielded content, then `foot`, and a content template rendering the
binding inside a `p` element. -/
def fixtureReg : Registry :=
  [("layout", [.text "head", .yield, .text "foot"]),
   ("content", [.text "<p>", .dataRef, .text "</p>"])]

/-- The base response writer: empty headers, no status sent, empty body. -/
def w0 : RespState := ⟨[], [], none, ""⟩

/-- A registry exercising all three partial-lookup cases: a page
override `side-page`, a bare fallback `extra`, and a missing name. -/
def partReg : Registry :=
  [("layoutOv", [.part "side"]),
   ("layoutFb", [.part "extra"]),
   ("layoutNone", [.part "missing"]),
   ("page", [.text "pg"]),
   ("side-page", [.text "override"]),
   ("side", [.text "base"]),
   ("extra", [.text "plain"])]

def errReg : Registry :=
  [("layout", [.text "head", .yield, .text "foot"]),
   ("badData", [.field "Missing"])]

def noMarkerReq : Request := ⟨"GET", [], [], false⟩

def hRedirect : Request → List RWOp :=
  fun _ => [.setHeader "Location" "/next", .writeHeader 302]

def markerGetReq : Request := ⟨"GET", [("Turbolinks-Referrer", "x")], [], false⟩

def postReq : Request :=
  ⟨"POST", [("Turbolinks-Referrer", "http://localhost:3000/redirect")], [], false⟩

def hPlain : Request → List RWOp := fun _ => [.write "hello"]

/-- A request presenting the flash cookie produced for the two-byte
message `hi`. -/
def flashReq : Request := ⟨"GET", [], [("_turbo_message", "aGk=")], false⟩

/-- A parser stub for the compilation fixtures: the source `BAD` fails
to parse, everything else becomes a one-piece template. -/
def demoParse : String → Option Template :=
  fun src => if src = "BAD" then none else some [.text src]

def demoFilesBad : List (String × String) :=
  [("content.html", "A"), ("broken.tmpl", "BAD")]

def demoFilesGood : List (String × String) :=
  [("content.html", "A"), ("nav.tmpl", "N"), ("notes.md", "skip")]

/-- A handler that writes body bytes and then sets a redirect target. -/
def junkHandler : Request → List RWOp :=
  fun _ => [.write "junk", .setHeader "Location" "/"]

/-- The second hop of the navigation-cookie handshake: a marker-bearing
request carrying the cookie set by the first hop. -/
def hopReq : Request :=
  ⟨"GET", [("Turbolinks-Referrer", "x")], [("_turbolinks_location", "/next")], false⟩

/-! ### Header-map lemmas -/

theorem find?_filter_of_imp {α : Type} (l : List α) (p q : α → Bool)
    (h : ∀ a, p a = true → q a = true) : (l.filter q).find? p = l.find? p := by
  induction l with
  | nil => rfl
  | cons a l ih =>
    by_cases hq : q a = true
    · by_cases hp : p a = true
      · simp [List.filter_cons, hq, List.find?_cons, hp]
      · simp only [List.filter_cons, hq, if_true, List.find?_cons]
        simp only [Bool.not_eq_true] at hp
        simp [hp, ih]
    · have hp : p a = false := by
        cases hpa : p a with
        | true => exact absurd (h a hpa) hq
        | false => rfl
      simp only [List.filter_cons, hq, if_false, List.find?_cons, hp]
      simp [ih]

theorem hGet_hSet_self (hs : HeaderMap) (k v : String) : hGet (hSet hs k v) k = v := by
  simp [hGet, hSet, List.find?_cons]

theorem hGet_hSet_ne (hs : HeaderMap) (k k' v : String) (h : k' ≠ k) :
    hGet (hSet hs k' v) k = hGet hs k := by
  have hne : (k' == k) = false := by simpa using h
  simp only [hGet, hSet, List.find?_cons, hne]
  rw [find?_filter_of_imp]
  intro a ha
  have : a.1 = k := by simpa using ha
  simp [bne, this, BEq.symm_false hne]

theorem hGet_hDel_self (hs : HeaderMap) (k : String) : hGet (hDel hs k) k = "" := by
  have : (hs.filter (fun p => p.1 != k)).find? (fun p => p.1 == k) = none := by
    rw [List.find?_eq_none]
    intro x hx
    have := List.of_mem_filter hx
    simpa [bne] using this
  simp [hGet, hDel, this]

theorem hGet_hDel_ne (hs : HeaderMap) (k k' : String) (h : k' ≠ k) :
    hGet (hDel hs k') k = hGet hs k := by
  have hne : (k' == k) = false := by simpa using h
  simp only [hGet, hDel]
  rw [find?_filter_of_imp]
  intro a ha
  have : a.1 = k := by simpa using ha
  simp [bne, this, BEq.symm_false hne]

theorem hGet_hAdd_ne (hs : HeaderMap) (k k' v : String) (h : k' ≠ k) :
    hGet (hAdd hs k' v) k = hGet hs k := by
  simp only [hGet, hAdd, List.find?_append]
  cases hf : hs.find? (fun p => p.1 == k) with
  | some p => simp
  | none =>
    have hne : (k' == k) = false := by simpa using h
    simp [List.find?_cons, hne]

/-! ### Staller-run lemmas: what a handler trace can and cannot touch -/

theorem sApply_w_sentStatus (s : StallerSt) (op : RWOp) :
    (sApply s op).w.sentStatus = s.w.sentStatus := by
  cases op <;> rfl

theorem sRun_w_sentStatus (ops : List RWOp) (s : StallerSt) :
    (sRun s ops).w.sentStatus = s.w.sentStatus := by
  induction ops generalizing s with
  | nil => rfl
  | cons op ops ih => rw [sRun, List.foldl_cons, ← sRun, ih, sApply_w_sentStatus]

theorem sApply_w_body (s : StallerSt) (op : RWOp) : (sApply s op).w.body = s.w.body := by
  cases op <;> rfl

theorem sRun_w_body (ops : List RWOp) (s : StallerSt) : (sRun s ops).w.body = s.w.body := by
  induction ops generalizing s with
  | nil => rfl
  | cons op ops ih => rw [sRun, List.foldl_cons, ← sRun, ih, sApply_w_body]

theorem sApply_setCookies_growth (s : StallerSt) (op : RWOp) :
    ∃ l, (sApply s op).w.setCookies = s.w.setCookies ++ l := by
  cases op with
  | setCookie c => exact ⟨[c], rfl⟩
  | setHeader k v => exact ⟨[], by simp [sApply]⟩
  | addHeader k v => exact ⟨[], by simp [sApply]⟩
  | delHeader k => exact ⟨[], by simp [sApply]⟩
  | writeHeader c => exact ⟨[], by simp [sApply]⟩
  | write b => exact ⟨[], by simp [sApply]⟩

theorem sRun_setCookies_growth (ops : List RWOp) (s : StallerSt) :
    ∃ l, (sRun s ops).w.setCookies = s.w.setCookies ++ l := by
  induction ops generalizing s with
  | nil => exact ⟨[], by simp [sRun]⟩
  | cons op ops ih =>
    obtain ⟨l1, h1⟩ := sApply_setCookies_growth s op
    obtain ⟨l2, h2⟩ := ih (sApply s op)
    exact ⟨l1 ++ l2, by rw [sRun, List.foldl_cons, ← sRun, h2, h1, List.append_assoc]⟩

theorem sApply_headers_untouched (s : StallerSt) (op : RWOp) (k : String)
    (h : touchesHeader k op = false) :
    hGet (sApply s op).w.headers k = hGet s.w.headers k := by
  cases op with
  | setHeader k2 v =>
    have : k2 ≠ k := by simpa [touchesHeader] using h
    exact hGet_hSet_ne _ _ _ _ this
  | addHeader k2 v =>
    have : k2 ≠ k := by simpa [touchesHeader] using h
    exact hGet_hAdd_ne _ _ _ _ this
  | delHeader k2 =>
    have : k2 ≠ k := by simpa [touchesHeader] using h
    exact hGet_hDel_ne _ _ _ this
  | writeHeader c => rfl
  | write b => rfl
  | setCookie c => rfl

theorem sRun_headers_untouched (ops : List RWOp) (s : StallerSt) (k : String)
    (h : ops.all (fun op => !touchesHeader k op) = true) :
    hGet (sRun s ops).w.headers k = hGet s.w.headers k := by
  induction ops generalizing s with
  | nil => rfl
  | cons op ops ih =>
    simp only [List.all_cons, Bool.and_eq_true, Bool.not_eq_true'] at h
    rw [sRun, List.foldl_cons, ← sRun, ih _ (by simpa using h.2),
      sApply_headers_untouched _ _ _ h.1]

theorem lastCodeFrom_cons (c0 : Nat) (op : RWOp) (ops : List RWOp) :
    lastCodeFrom c0 (op :: ops) =
      lastCodeFrom (match op with | .writeHeader n => n | _ => c0) ops := rfl

theorem sRun_code (ops : List RWOp) (s : StallerSt) :
    (sRun s ops).code = lastCodeFrom s.code ops := by
  induction ops generalizing s with
  | nil => rfl
  | cons op ops ih =>
    rw [sRun, List.foldl_cons, ← sRun, ih, lastCodeFrom_cons]
    cases op <;> rfl

theorem lastCodeFrom_no_writeHeader (ops : List RWOp) (c0 : Nat)
    (h : ops.all (fun op => match op with | .writeHeader _ => false | _ => true) = true) :
    lastCodeFrom c0 ops = c0 := by
  induction ops generalizing c0 with
  | nil => rfl
  | cons op ops ih =>
    simp only [List.all_cons, Bool.and_eq_true] at h
    rw [lastCodeFrom_cons]
    cases op with
    | writeHeader n => simp at h
    | setHeader k v => exact ih _ h.2
    | addHeader k v => exact ih _ h.2
    | delHeader k => exact ih _ h.2
    | write b => exact ih _ h.2
    | setCookie c => exact ih _ h.2

/-! ### Template-evaluation lemmas -/

theorem evalPiecesWith_irrel (reg : Registry) (binding : TData) (tname : String)
    (ps : List Piece) (h : noHelper ps = true)
    (env env' : Option LayoutEnv) (nest nest' : String → Except String String) :
    evalPiecesWith reg env binding tname nest ps =
      evalPiecesWith reg env' binding tname nest' ps := by
  induction ps with
  | nil => rfl
  | cons p rest ih =>
    simp only [noHelper, List.all_cons, Bool.and_eq_true] at h
    have ihr := ih h.2
    cases p with
    | text s => simp only [evalPiecesWith]; rw [ihr]
    | dataRef => simp only [evalPiecesWith]; rw [ihr]
    | field f => simp only [evalPiecesWith]; rw [ihr]
    | yield => simp [noHelper] at h
    | part b => simp [noHelper] at h

theorem evalTpl_helper_free (reg : Registry) (name : String) (t : Template)
    (hl : lookupT reg name = some t) (hnh : noHelper t = true) (binding : TData)
    (env env' : Option LayoutEnv) (fuel fuel' : Nat) :
    evalTpl reg env binding (fuel + 1) name = evalTpl reg env' binding (fuel' + 1) name := by
  simp only [evalTpl, hl]
  exact evalPiecesWith_irrel reg binding name t hnh env env' _ _

/-- With the default helper set (no layout bound), a template that
reaches a `yield` piece fails: either an earlier piece fails, or the
`yield` helper itself returns its fixed error. -/
theorem evalPieces_yield_no_layout (reg : Registry) (binding : TData) (tname : String)
    (ps : List Piece) (hy : Piece.yield ∈ ps) (nest : String → Except String String) :
    ∃ e, evalPiecesWith reg none binding tname nest ps = .error e := by
  induction ps with
  | nil => cases hy
  | cons p rest ih =>
    cases p with
    | yield =>
      exact ⟨funcErrMsg tname "yield" "yield called with no layout defined",
        by simp [evalPiecesWith]⟩
    | text s =>
      have hy' : Piece.yield ∈ rest := by simpa using hy
      obtain ⟨e, he⟩ := ih hy'
      exact ⟨e, by simp [evalPiecesWith, he]⟩
    | dataRef =>
      have hy' : Piece.yield ∈ rest := by simpa using hy
      obtain ⟨e, he⟩ := ih hy'
      exact ⟨e, by simp [evalPiecesWith, he]⟩
    | field f =>
      have hy' : Piece.yield ∈ rest := by simpa using hy
      obtain ⟨e, he⟩ := ih hy'
      cases binding with
      | str s => exact ⟨execErrMsg tname (fieldErrReason f), by simp [evalPiecesWith]⟩
      | obj fields =>
        cases hf : lkField fields f with
        | none => exact ⟨execErrMsg tname (fieldErrReason f), by simp [evalPiecesWith, hf]⟩
        | some v => exact ⟨e, by simp [evalPiecesWith, hf, he]⟩
    | part b =>
      exact ⟨funcErrMsg tname "partial" "partial called with no layout defined",
        by simp [evalPiecesWith]⟩

theorem evalTpl_succ (reg : Registry) (env : Option LayoutEnv) (binding : TData)
    (fuel : Nat) (name : String) :
    evalTpl reg env binding (fuel + 1) name =
      match lookupT reg name with
      | none => .error (undefErrMsg name)
      | some pieces => evalPiecesWith reg env binding name (evalTpl reg env binding fuel) pieces := rfl

/-! ### The claims -/

/-- Claim C1: with a layout configured, a non-partial render is the
layout around the content template's output on the same binding
(`head<p>test</p>foot` for the fixture); with the partial flag set, or
with no layout configured, the render is exactly the content template's
own output. -/
theorem C1_layout_composition
    (reg : Registry) (L N a b : String) (tN : Template) (binding : TData)
    (out : String) (fuel : Nat)
    (hL : L ≠ "")
    (hlay : lookupT reg L = some [.text a, .yield, .text b])
    (hcon : lookupT reg N = some tN)
    (hnh : noHelper tN = true)
    (hout : evalTpl reg none binding (fuel + 1) N = .ok out) :
    StringRender (fuel + 1 + 1) ⟨reg, L⟩ N binding [] = .ok (a ++ out ++ b) ∧
    StringRender (fuel + 1 + 1) ⟨reg, L⟩ N binding [true] = .ok out ∧
    StringRender (fuel + 1 + 1) ⟨reg, ""⟩ N binding [] = .ok out := by
  have hLb : (L != "") = true := by simpa using hL
  have hnest : evalTpl reg (some ⟨N⟩) binding (fuel + 1) N = .ok out :=
    (evalTpl_helper_free reg N tN hcon hnh binding (some ⟨N⟩) none fuel fuel).trans hout
  refine ⟨?_, ?_, ?_⟩
  · simp only [StringRender, renderBody, lastFlag, List.foldl_nil, hLb, Bool.not_false,
      Bool.and_self, if_true, hcon, Option.isSome_some]
    rw [evalTpl_succ, hlay]
    simp only [evalPiecesWith, hnest]
    rw [String.append_empty, ← String.append_assoc]
  · simp only [StringRender, renderBody, lastFlag, List.foldl_cons, List.foldl_nil,
      Bool.not_true, Bool.and_false, if_false]
    exact (evalTpl_helper_free reg N tN hcon hnh binding none none (fuel + 1) fuel).trans hout
  · simp only [StringRender, renderBody, lastFlag, List.foldl_nil]
    have h0 : (("" : String) != "") = false := by simp
    simp only [h0, Bool.false_and, if_false]
    exact (evalTpl_helper_free reg N tN hcon hnh binding none none (fuel + 1) fuel).trans hout

theorem C1_layout_composition_witness :
    StringRender 2 ⟨fixtureReg, "layout"⟩ "content" (.str "test") [] = .ok "head<p>test</p>foot" ∧
    StringRender 2 ⟨fixtureReg, "layout"⟩ "content" (.str "test") [true] = .ok "<p>test</p>" ∧
    StringRender 2 ⟨fixtureReg, ""⟩ "content" (.str "test") [] = .ok "<p>test</p>" := by
  have h := C1_layout_composition fixtureReg "layout" "content" "head" "foot"
      [.text "<p>", .dataRef, .text "</p>"] (.str "test") "<p>test</p>" 0
      (by decide) rfl rfl rfl rfl
  exact ⟨h.1, h.2.1, h.2.2⟩


/-- Claim C4: `Render.HTML` renders to an intermediate buffer first; on
any evaluation failure (in particular a missing template name) it
replies through `http.Error` with status 500 carrying the error text
and returns the error, never writing the caller's status code; only on
success does it write the status code and then the buffered body. -/
theorem C4_error_before_status
    (fuel : Nat) (cfg : RenderCfg) (w : RespState) (status : Nat) (name : String)
    (binding : TData) (flags : List Bool)
    (hw : w.sentStatus = none) :
    (∀ e, renderBody fuel cfg name binding (lastFlag flags) = .error e →
       HTML fuel cfg w status name binding flags = (httpError w e 500, some e) ∧
       (HTML fuel cfg w status name binding flags).1.sentStatus = some 500 ∧
       (HTML fuel cfg w status name binding flags).1.sentStatus ≠ some 200 ∧
       (HTML fuel cfg w status name binding flags).1.body = w.body ++ (e ++ "\n")) ∧
    (∀ out, renderBody fuel cfg name binding (lastFlag flags) = .ok out →
       (HTML fuel cfg w status name binding flags).2 = none ∧
       (HTML fuel cfg w status name binding flags).1.sentStatus = some status ∧
       (HTML fuel cfg w status name binding flags).1.body = w.body ++ out) ∧
    (lookupT cfg.reg name = none →
     (cfg.layout = "" ∨ lastFlag flags = true ∨
        ∀ lp, lookupT cfg.reg cfg.layout = some lp → Piece.yield ∈ lp) →
     ∃ e, renderBody fuel cfg name binding (lastFlag flags) = .error e) := by
  refine ⟨?_, ?_, ?_⟩
  · intro e he
    refine ⟨by simp only [HTML, he], ?_, ?_, ?_⟩
    · simp only [HTML, he, httpError, dApply, hw, Option.isSome_none, Bool.false_eq_true,
        if_false, Option.isSome_some, if_true]
    · simp only [HTML, he, httpError, dApply, hw, Option.isSome_none, Bool.false_eq_true,
        if_false, Option.isSome_some, if_true]
      decide
    · simp only [HTML, he, httpError, dApply, hw, Option.isSome_none, Bool.false_eq_true,
        if_false, Option.isSome_some, if_true]
  · intro out hok
    refine ⟨by simp only [HTML, hok], ?_, ?_⟩
    · simp only [HTML, hok, dApply, hw, Option.isSome_none, Bool.false_eq_true, if_false,
        Option.isSome_some, if_true]
    · simp only [HTML, hok, dApply, hw, Option.isSome_none, Bool.false_eq_true, if_false,
        Option.isSome_some, if_true]
  · intro hname hdisj
    cases fuel with
    | zero =>
      refine ⟨"turbo: template recursion limit exceeded", ?_⟩
      unfold renderBody
      split <;> rfl
    | succ fuel =>
      by_cases hcond : (cfg.layout != "" && !lastFlag flags) = true
      · have hlayne : cfg.layout ≠ "" := by
          rcases Bool.and_eq_true _ _ |>.mp hcond with ⟨h1, _⟩
          simpa using h1
        have hnp : lastFlag flags ≠ true := by
          rcases Bool.and_eq_true _ _ |>.mp hcond with ⟨_, h2⟩
          simpa using h2
        have hyieldall : ∀ lp, lookupT cfg.reg cfg.layout = some lp → Piece.yield ∈ lp := by
          rcases hdisj with h | h | h
          · exact absurd h hlayne
          · exact absurd h hnp
          · exact h
        simp only [renderBody, hcond, if_true, hname, Option.isSome_none, Bool.false_eq_true,
          if_false]
        rw [evalTpl_succ]
        cases hl : lookupT cfg.reg cfg.layout with
        | none => exact ⟨undefErrMsg cfg.layout, rfl⟩
        | some lp =>
          exact evalPieces_yield_no_layout cfg.reg binding cfg.layout lp (hyieldall lp hl) _
      · simp only [renderBody, hcond, Bool.false_eq_true, if_false]
        rw [evalTpl_succ, hname]
        exact ⟨undefErrMsg name, rfl⟩

theorem C4_error_before_status_witness :
    (HTML 2 ⟨fixtureReg, "layout"⟩ w0 200 "nope" (.str "test") []).2 =
      some (funcErrMsg "layout" "yield" "yield called with no layout defined") ∧
    (HTML 2 ⟨fixtureReg, "layout"⟩ w0 200 "nope" (.str "test") []).1.sentStatus = some 500 ∧
    (HTML 2 ⟨fixtureReg, "layout"⟩ w0 200 "nope" (.str "test") []).1.sentStatus ≠ some 200 ∧
    (HTML 2 ⟨fixtureReg, "layout"⟩ w0 200 "content" (.str "test") []).1.sentStatus = some 200 ∧
    (HTML 2 ⟨fixtureReg, "layout"⟩ w0 200 "content" (.str "test") []).1.body = "head<p>test</p>foot" ∧
    (∃ e, renderBody 2 ⟨fixtureReg, "layout"⟩ "nope" (.str "test") (lastFlag []) = .error e) := by
  have herr := (C4_error_before_status 2 ⟨fixtureReg, "layout"⟩ w0 200 "nope" (.str "test") [] rfl).1
    (funcErrMsg "layout" "yield" "yield called with no layout defined") rfl
  have hok := (C4_error_before_status 2 ⟨fixtureReg, "layout"⟩ w0 200 "content" (.str "test") [] rfl).2.1
    "head<p>test</p>foot" rfl
  have hmiss := (C4_error_before_status 2 ⟨fixtureReg, "layout"⟩ w0 200 "nope" (.str "test") [] rfl).2.2
    rfl (Or.inr (Or.inr (fun lp h => by
      rw [show lookupT fixtureReg "layout" = some ([.text "head", .yield, .text "foot"] : Template) from rfl] at h
      injection h with h
      subst h
      decide)))
  refine ⟨?_, herr.2.1, herr.2.2.1, hok.2.1, ?_, hmiss⟩
  · rw [herr.1]
  · exact hok.2.2


/-- Claim C5: the bound partial helper invoked with base name `B` while
rendering page `N` renders `B-N` when that template exists, else `B`
when it exists, and otherwise yields empty output with no error. -/
theorem C5_partial_override
    (reg : Registry) (L N B : String) (tN : Template) (binding : TData) (fuel : Nat)
    (hL : L ≠ "")
    (hlay : lookupT reg L = some [.part B])
    (hcon : lookupT reg N = some tN) :
    (∀ s, lookupT reg (B ++ "-" ++ N) ≠ none →
       evalTpl reg (some ⟨N⟩) binding (fuel + 1) (B ++ "-" ++ N) = .ok s →
       StringRender (fuel + 1 + 1) ⟨reg, L⟩ N binding [] = .ok s) ∧
    (∀ s, lookupT reg (B ++ "-" ++ N) = none → lookupT reg B ≠ none →
       evalTpl reg (some ⟨N⟩) binding (fuel + 1) B = .ok s →
       StringRender (fuel + 1 + 1) ⟨reg, L⟩ N binding [] = .ok s) ∧
    (lookupT reg (B ++ "-" ++ N) = none → lookupT reg B = none →
       StringRender (fuel + 1 + 1) ⟨reg, L⟩ N binding [] = .ok "") := by
  have hLb : (L != "") = true := by simpa using hL
  refine ⟨?_, ?_, ?_⟩
  · intro s hov hnest
    have hovs : (lookupT reg (B ++ "-" ++ N)).isSome = true := Option.isSome_iff_ne_none.mpr hov
    simp only [StringRender, renderBody, lastFlag, List.foldl_nil, hLb, Bool.not_false,
      Bool.and_self, if_true, hcon, Option.isSome_some]
    rw [evalTpl_succ, hlay]
    simp only [evalPiecesWith, hovs, if_true, hnest]
    rw [String.append_empty]
  · intro s hov hB hnest
    have hBs : (lookupT reg B).isSome = true := Option.isSome_iff_ne_none.mpr hB
    simp only [StringRender, renderBody, lastFlag, List.foldl_nil, hLb, Bool.not_false,
      Bool.and_self, if_true, hcon, Option.isSome_some]
    rw [evalTpl_succ, hlay]
    simp only [evalPiecesWith, hov, Option.isSome_none, Bool.false_eq_true, if_false, hBs,
      if_true, hnest]
    rw [String.append_empty]
  · intro hov hB
    simp only [StringRender, renderBody, lastFlag, List.foldl_nil, hLb, Bool.not_false,
      Bool.and_self, if_true, hcon, Option.isSome_some]
    rw [evalTpl_succ, hlay]
    simp only [evalPiecesWith, hov, hB, Option.isSome_none, Bool.false_eq_true, if_false]
    rfl

theorem C5_partial_override_witness :
    StringRender 2 ⟨partReg, "layoutOv"⟩ "page" (.str "d") [] = .ok "override" ∧
    StringRender 2 ⟨partReg, "layoutFb"⟩ "page" (.str "d") [] = .ok "plain" ∧
    StringRender 2 ⟨partReg, "layoutNone"⟩ "page" (.str "d") [] = .ok "" := by
  refine ⟨?_, ?_, ?_⟩
  · exact (C5_partial_override partReg "layoutOv" "page" "side" [.text "pg"] (.str "d") 0
      (by decide) rfl rfl).1 "override" (by decide) rfl
  · exact (C5_partial_override partReg "layoutFb" "page" "extra" [.text "pg"] (.str "d") 0
      (by decide) rfl rfl).2.1 "plain" rfl (by decide) rfl
  · exact (C5_partial_override partReg "layoutNone" "page" "missing" [.text "pg"] (.str "d") 0
      (by decide) rfl rfl).2.2 rfl rfl

/-- Claim C7: an evaluation failure inside the content template
propagates out of the layout render as a single error whose message
embeds the content template's own named error (`template: <content>:
...`), identifying the erroring template and not merely the outermost
one evaluated. -/
theorem C7_error_names_failing_template
    (reg : Registry) (L N a b : String) (tN : Template) (binding : TData) (fuel : Nat)
    (hL : L ≠ "")
    (hlay : lookupT reg L = some [.text a, .yield, .text b])
    (hcon : lookupT reg N = some tN) :
    (∀ e, evalTpl reg (some ⟨N⟩) binding (fuel + 1) N = .error e →
       StringRender (fuel + 1 + 1) ⟨reg, L⟩ N binding [] = .error (funcErrMsg L "yield" e)) ∧
    (∀ f kvs, tN = [.field f] → binding = .obj kvs → lkField kvs f = none →
       evalTpl reg (some ⟨N⟩) binding (fuel + 1) N = .error (execErrMsg N (fieldErrReason f))) := by
  have hLb : (L != "") = true := by simpa using hL
  constructor
  · intro e herr
    simp only [StringRender, renderBody, lastFlag, List.foldl_nil, hLb, Bool.not_false,
      Bool.and_self, if_true, hcon, Option.isSome_some]
    rw [evalTpl_succ, hlay]
    simp only [evalPiecesWith, herr]
  · intro f kvs ht hb hf
    subst ht hb
    rw [evalTpl_succ, hcon]
    simp only [evalPiecesWith, hf]

theorem C7_error_names_failing_template_witness :
    StringRender 2 ⟨errReg, "layout"⟩ "badData" (.obj []) [] =
      .error (funcErrMsg "layout" "yield" (execErrMsg "badData" (fieldErrReason "Missing"))) ∧
    funcErrMsg "layout" "yield" (execErrMsg "badData" (fieldErrReason "Missing")) =
      "template: layout: executing \"layout\": error calling yield: template: badData: executing \"badData\": cannot evaluate field Missing" := by
  have h := C7_error_names_failing_template errReg "layout" "badData" "head" "foot"
      [.field "Missing"] (.obj []) 0 (by decide) rfl rfl
  have hq := h.2 "Missing" [] rfl rfl rfl
  exact ⟨h.1 _ hq, rfl⟩


/-- Claim C8: without the marker header the bridge invokes the wrapped
handler on the unmodified response writer and changes nothing — status,
headers, body and cookies are exactly the handler's own. -/
theorem C8_passthrough (h : Request → List RWOp) (r : Request) (w : RespState)
    (hm : hGet r.headers TurbolinksReferrer = "") :
    Handler h r w = dRun w (h r) ∧
    (Handler h r w).sentStatus = (dRun w (h r)).sentStatus ∧
    (Handler h r w).headers = (dRun w (h r)).headers ∧
    (Handler h r w).body = (dRun w (h r)).body ∧
    (Handler h r w).setCookies = (dRun w (h r)).setCookies := by
  have hmb : (hGet r.headers TurbolinksReferrer == "") = true := by simpa using hm
  have he : Handler h r w = dRun w (h r) := by simp only [Handler, hmb, if_true]
  exact ⟨he, by rw [he], by rw [he], by rw [he], by rw [he]⟩

theorem C8_passthrough_witness :
    Handler hRedirect noMarkerReq w0 = dRun w0 (hRedirect noMarkerReq) ∧
    (Handler hRedirect noMarkerReq w0).sentStatus = some 302 ∧
    hGet (Handler hRedirect noMarkerReq w0).headers "Location" = "/next" ∧
    (Handler hRedirect noMarkerReq w0).setCookies = [] := by
  have h := C8_passthrough hRedirect noMarkerReq w0 rfl
  exact ⟨h.1, by rw [h.1]; rfl, by rw [h.1]; rfl, by rw [h.1]; rfl⟩

theorem SendResponse_sentStatus (s : StallerSt) (hs : s.w.sentStatus = none) :
    (SendResponse s).sentStatus = some s.code := by
  simp [SendResponse, hs]

theorem SendResponse_headers (s : StallerSt) : (SendResponse s).headers = s.w.headers := by
  unfold SendResponse
  split <;> rfl

theorem SendResponse_setCookies (s : StallerSt) :
    (SendResponse s).setCookies = s.w.setCookies := by
  unfold SendResponse
  split <;> rfl

theorem SendResponse_body (s : StallerSt) (hs : s.w.sentStatus = none) :
    (SendResponse s).body = s.w.body ++ s.buf := by
  simp [SendResponse, hs]

theorem navCookieCheck_sentStatus (r : Request) (w : RespState) :
    (navCookieCheck r w).sentStatus = w.sentStatus := by
  unfold navCookieCheck
  cases reqCookie r TurbolinksCookie <;> rfl

theorem navCookieSet_code (r : Request) (rs : StallerSt) :
    (navCookieSet r rs).code = rs.code := by
  simp only [navCookieSet]
  split <;> rfl

theorem navCookieSet_w_sentStatus (r : Request) (rs : StallerSt) :
    (navCookieSet r rs).w.sentStatus = rs.w.sentStatus := by
  simp only [navCookieSet]
  split <;> rfl

theorem navCookieSet_headers (r : Request) (rs : StallerSt) :
    (navCookieSet r rs).w.headers = rs.w.headers := by
  simp only [navCookieSet]
  split <;> rfl

/-- Claim C10: the staller's flush sends the recorded status code
verbatim — the last `WriteHeader` value folded over the initial value
0 — so a handler that never calls `WriteHeader` flushes status 0, not a
defaulted 200. -/
theorem C10_staller_status_verbatim (h : Request → List RWOp) (r : Request) (w : RespState)
    (hm : hGet r.headers TurbolinksReferrer ≠ "")
    (hw : w.sentStatus = none) :
    (r.method ≠ "POST" → (Handler h r w).sentStatus = some (lastCode (h r))) ∧
    (r.method = "POST" → hGet (sRun (stallerInit w) (h r)).w.headers "Location" = "" →
       (Handler h r w).sentStatus = some (lastCode (h r))) ∧
    ((h r).all (fun op => match op with | .writeHeader _ => false | _ => true) = true →
       lastCode (h r) = 0) := by
  have hmb : (hGet r.headers TurbolinksReferrer == "") = false := by simpa using hm
  refine ⟨?_, ?_, ?_⟩
  · intro hp
    have hpb : (r.method == "POST") = false := by simpa using hp
    have hH : Handler h r w =
        SendResponse (navCookieSet r (sRun (stallerInit (navCookieCheck r w)) (h r))) := by
      simp only [Handler, hmb, Bool.false_eq_true, if_false, hpb]
    have hst : (navCookieSet r (sRun (stallerInit (navCookieCheck r w)) (h r))).w.sentStatus = none := by
      rw [navCookieSet_w_sentStatus, sRun_w_sentStatus]
      show (navCookieCheck r w).sentStatus = none
      rw [navCookieCheck_sentStatus, hw]
    rw [hH, SendResponse_sentStatus _ hst, navCookieSet_code, sRun_code]
    rfl
  · intro hp hloc
    have hpb : (r.method == "POST") = true := by simpa using hp
    have hH : Handler h r w = SendResponse (postRewrite (sRun (stallerInit w) (h r))) := by
      simp only [Handler, hmb, Bool.false_eq_true, if_false, hpb, if_true]
    have hpr : postRewrite (sRun (stallerInit w) (h r)) = sRun (stallerInit w) (h r) := by
      unfold postRewrite
      rw [hloc]
      simp
    have hst : (sRun (stallerInit w) (h r)).w.sentStatus = none := by
      rw [sRun_w_sentStatus]
      exact hw
    rw [hH, hpr, SendResponse_sentStatus _ hst, sRun_code]
    rfl
  · intro hall
    exact lastCodeFrom_no_writeHeader _ _ hall

theorem C10_staller_status_verbatim_witness :
    (Handler hPlain markerGetReq w0).sentStatus = some 0 ∧
    (Handler hPlain postReq w0).sentStatus = some 0 := by
  have h1 := C10_staller_status_verbatim hPlain markerGetReq w0 (by decide) rfl
  have h2 := C10_staller_status_verbatim hPlain postReq w0 (by decide) rfl
  constructor
  · rw [h1.1 (by decide), h1.2.2 rfl]
  · rw [h2.2.1 rfl rfl, h2.2.2 rfl]


/-- Claim C2 (amended): on a marker-bearing POST whose handler set a
`Location` header, the flushed response has status 200, Content-Type
`text/javascript`, `X-Content-Type-Options: nosniff`, no `Location`
header, and a body that is the handler's buffered output followed by
`Turbolinks.clearCache();Turbolinks.visit("<escaped-location>",
\x7baction: "advance"\x7d);` — exactly the script when the handler wrote no
body bytes. -/
theorem C2_post_redirect_bridge
    (h : Request → List RWOp) (r : Request) (w : RespState) (loc : String)
    (hm : hGet r.headers TurbolinksReferrer ≠ "")
    (hp : r.method = "POST")
    (hw : w.sentStatus = none)
    (hloc : hGet (sRun (stallerInit w) (h r)).w.headers "Location" = loc)
    (hne : loc ≠ "") :
    (Handler h r w).sentStatus = some 200 ∧
    hGet (Handler h r w).headers "Content-Type" = "text/javascript" ∧
    hGet (Handler h r w).headers "X-Content-Type-Options" = "nosniff" ∧
    hGet (Handler h r w).headers "Location" = "" ∧
    (Handler h r w).body = w.body ++ ((sRun (stallerInit w) (h r)).buf ++ turbolinksJS loc) := by
  have hmb : (hGet r.headers TurbolinksReferrer == "") = false := by simpa using hm
  have hpb : (r.method == "POST") = true := by simpa using hp
  have hneb : (loc != "") = true := by simpa using hne
  have hH : Handler h r w = SendResponse (postRewrite (sRun (stallerInit w) (h r))) := by
    simp only [Handler, hmb, Bool.false_eq_true, if_false, hpb, if_true]
  have hpr : postRewrite (sRun (stallerInit w) (h r)) =
      { w := { (sRun (stallerInit w) (h r)).w with
                 headers := hDel (hSet (hSet (sRun (stallerInit w) (h r)).w.headers
                   "Content-Type" "text/javascript") "X-Content-Type-Options" "nosniff") "Location",
                 setCookies := (sRun (stallerInit w) (h r)).w.setCookies },
        code := 200,
        buf := (sRun (stallerInit w) (h r)).buf ++ turbolinksJS loc } := by
    simp only [postRewrite, hloc, hneb, if_true]
    rfl
  have hst : (sRun (stallerInit w) (h r)).w.sentStatus = none := by
    rw [sRun_w_sentStatus]
    exact hw
  have hbd : (sRun (stallerInit w) (h r)).w.body = w.body := by
    rw [sRun_w_body]
    rfl
  rw [hH, hpr]
  refine ⟨?_, ?_, ?_, ?_, ?_⟩
  · rw [SendResponse_sentStatus _ (by simpa using hst)]
  · rw [SendResponse_headers]
    show hGet (hDel (hSet (hSet _ "Content-Type" "text/javascript") "X-Content-Type-Options" "nosniff") "Location") "Content-Type" = "text/javascript"
    rw [hGet_hDel_ne _ _ _ (by decide), hGet_hSet_ne _ _ _ _ (by decide), hGet_hSet_self]
  · rw [SendResponse_headers]
    show hGet (hDel (hSet (hSet _ "Content-Type" "text/javascript") "X-Content-Type-Options" "nosniff") "Location") "X-Content-Type-Options" = "nosniff"
    rw [hGet_hDel_ne _ _ _ (by decide), hGet_hSet_self]
  · rw [SendResponse_headers]
    exact hGet_hDel_self _ _
  · rw [SendResponse_body _ (by simpa using hst)]
    show (sRun (stallerInit w) (h r)).w.body ++ _ = _
    rw [hbd]

/-- Claim C2, counterexample to the original wording: a handler that
writes body bytes before redirecting flushes those bytes followed by
the script, so the body is not exactly the script. -/
theorem C2_exact_body_counterexample :
    hGet postReq.headers TurbolinksReferrer ≠ "" ∧
    postReq.method = "POST" ∧
    hGet (sRun (stallerInit w0) (junkHandler postReq)).w.headers "Location" = "/" ∧
    (Handler junkHandler postReq w0).sentStatus = some 200 ∧
    (Handler junkHandler postReq w0).body ≠ turbolinksJS "/" ∧
    (Handler junkHandler postReq w0).body = "junk" ++ turbolinksJS "/" := by
  refine ⟨by decide, rfl, rfl, rfl, by decide, rfl⟩

theorem C2_post_redirect_bridge_witness :
    (Handler hRedirect postReq w0).sentStatus = some 200 ∧
    hGet (Handler hRedirect postReq w0).headers "Content-Type" = "text/javascript" ∧
    hGet (Handler hRedirect postReq w0).headers "X-Content-Type-Options" = "nosniff" ∧
    hGet (Handler hRedirect postReq w0).headers "Location" = "" ∧
    (Handler hRedirect postReq w0).body =
      "Turbolinks.clearCache();Turbolinks.visit(\"/next\", \x7baction: \"advance\"\x7d);" := by
  have h := C2_post_redirect_bridge hRedirect postReq w0 "/next" (by decide) rfl rfl rfl (by decide)
  exact ⟨h.1, h.2.1, h.2.2.1, h.2.2.2.1, h.2.2.2.2.trans rfl⟩


/-- Claim C3: on a marker-bearing non-POST request, an inbound
navigation cookie is relayed into the `Turbolinks-Location` header and
expired (negative max-age) on the response; and if the handler set a
`Location` header, a fresh navigation cookie carrying that location is
set with path `/`, HttpOnly, and Secure exactly when the request is TLS
or carries a (case-insensitively) `https` `X-Forwarded-Proto`. -/
theorem C3_navigation_cookie
    (h : Request → List RWOp) (r : Request) (w : RespState)
    (hm : hGet r.headers TurbolinksReferrer ≠ "")
    (hp : r.method ≠ "POST") :
    (∀ v, reqCookie r TurbolinksCookie = some v →
       ((h r).all (fun op => !touchesHeader "Turbolinks-Location" op) = true →
          hGet (Handler h r w).headers "Turbolinks-Location" = v) ∧
       expiredNavCookie v ∈ (Handler h r w).setCookies ∧
       (expiredNavCookie v).maxAge < 0) ∧
    (∀ loc, loc ≠ "" →
       hGet (sRun (stallerInit (navCookieCheck r w)) (h r)).w.headers "Location" = loc →
       navCookie loc (IsTLS r) ∈ (Handler h r w).setCookies ∧
       (navCookie loc (IsTLS r)).path = "/" ∧
       (navCookie loc (IsTLS r)).httpOnly = true ∧
       ((navCookie loc (IsTLS r)).secure = true ↔
         (r.tls = true ∨ asciiToLower (hGet r.headers "X-Forwarded-Proto") = "https"))) := by
  have hmb : (hGet r.headers TurbolinksReferrer == "") = false := by simpa using hm
  have hpb : (r.method == "POST") = false := by simpa using hp
  have hH : Handler h r w =
      SendResponse (navCookieSet r (sRun (stallerInit (navCookieCheck r w)) (h r))) := by
    simp only [Handler, hmb, Bool.false_eq_true, if_false, hpb]
  constructor
  · intro v hcv
    have hw1 : navCookieCheck r w =
        { w with headers := hSet w.headers "Turbolinks-Location" v,
                 setCookies := w.setCookies ++ [expiredNavCookie v] } := by
      simp only [navCookieCheck, hcv]
    refine ⟨?_, ?_, by norm_num [expiredNavCookie]⟩
    · intro hall
      rw [hH, SendResponse_headers, navCookieSet_headers,
        sRun_headers_untouched _ _ _ hall]
      show hGet (navCookieCheck r w).headers "Turbolinks-Location" = v
      rw [hw1]
      exact hGet_hSet_self _ _ _
    · obtain ⟨l1, hl1⟩ := sRun_setCookies_growth (h r) (stallerInit (navCookieCheck r w))
      have hgrow : ∃ l2, (navCookieSet r (sRun (stallerInit (navCookieCheck r w)) (h r))).w.setCookies =
          (sRun (stallerInit (navCookieCheck r w)) (h r)).w.setCookies ++ l2 := by
        simp only [navCookieSet]
        split
        · exact ⟨[navCookie _ (IsTLS r)], rfl⟩
        · exact ⟨[], by simp⟩
      obtain ⟨l2, hl2⟩ := hgrow
      rw [hH, SendResponse_setCookies, hl2, hl1]
      show expiredNavCookie v ∈ (navCookieCheck r w).setCookies ++ l1 ++ l2
      rw [hw1]
      simp
  · intro loc hne hloc
    have hneb : (loc != "") = true := by simpa using hne
    have hset : navCookieSet r (sRun (stallerInit (navCookieCheck r w)) (h r)) =
        sApply (sRun (stallerInit (navCookieCheck r w)) (h r))
          (.setCookie (navCookie loc (IsTLS r))) := by
      simp only [navCookieSet, hloc, hneb, if_true]
    refine ⟨?_, rfl, rfl, ?_⟩
    · rw [hH, SendResponse_setCookies, hset]
      simp [sApply]
    · simp [navCookie, IsTLS, Bool.or_eq_true]

theorem C3_navigation_cookie_witness :
    navCookie "/next" (IsTLS markerGetReq) ∈ (Handler hRedirect markerGetReq w0).setCookies ∧
    IsTLS markerGetReq = false ∧
    (navCookie "/next" (IsTLS markerGetReq)).path = "/" ∧
    (navCookie "/next" (IsTLS markerGetReq)).httpOnly = true ∧
    hGet (Handler hPlain hopReq w0).headers "Turbolinks-Location" = "/next" ∧
    expiredNavCookie "/next" ∈ (Handler hPlain hopReq w0).setCookies ∧
    (expiredNavCookie "/next").maxAge < 0 := by
  have h1 := (C3_navigation_cookie hRedirect markerGetReq w0 (by decide) (by decide)).2
    "/next" (by decide) rfl
  have h2 := (C3_navigation_cookie hPlain hopReq w0 (by decide) (by decide)).1
    "/next" rfl
  exact ⟨h1.1, by decide, h1.2.1, h1.2.2.1, h2.1 rfl, h2.2.1, h2.2.2⟩


/-! ### Base64 lemmas -/

theorem b64Index_b64Char : ∀ n < 64, b64Index (b64Char n) = some n := by decide

theorem b64Char_ne_eq (n : Nat) (h : n < 64) : b64Char n ≠ '=' := by
  intro he
  have h1 := b64Index_b64Char n h
  have h2 : b64Index '=' = none := by decide
  rw [he, h2] at h1
  cases h1

theorem sextet_lt (n k : Nat) : n / k % 64 < 64 := Nat.mod_lt _ (by norm_num)

theorem chunk3_bytes (a b c : Nat) (ha : a < 256) (hb : b < 256) (hc : c < 256) :
    (a * 65536 + b * 256 + c) / 262144 % 64 * 4 + (a * 65536 + b * 256 + c) / 4096 % 64 / 16 = a ∧
    (a * 65536 + b * 256 + c) / 4096 % 64 % 16 * 16 + (a * 65536 + b * 256 + c) / 64 % 64 / 4 = b ∧
    (a * 65536 + b * 256 + c) / 64 % 64 % 4 * 64 + (a * 65536 + b * 256 + c) % 64 = c := by
  refine ⟨?_, ?_, ?_⟩ <;> omega

theorem chunk2_bytes (a b : Nat) (ha : a < 256) (hb : b < 256) :
    (a * 65536 + b * 256) / 262144 % 64 * 4 + (a * 65536 + b * 256) / 4096 % 64 / 16 = a ∧
    (a * 65536 + b * 256) / 4096 % 64 % 16 * 16 + (a * 65536 + b * 256) / 64 % 64 / 4 = b := by
  refine ⟨?_, ?_⟩ <;> omega

theorem chunk1_bytes (a : Nat) (ha : a < 256) :
    a * 65536 / 262144 % 64 * 4 + a * 65536 / 4096 % 64 / 16 = a := by omega

theorem b64_decode_encode : ∀ (m : List Nat), (∀ x ∈ m, x < 256) →
    b64DecodeGroups (b64EncodeGroups m) = some m
  | [], _ => rfl
  | [a], h => by
    have ha : a < 256 := h a (by simp)
    have h1 := b64Index_b64Char (a * 65536 / 262144 % 64) (sextet_lt _ _)
    have h2 := b64Index_b64Char (a * 65536 / 4096 % 64) (sextet_lt _ _)
    simp only [b64EncodeGroups, b64DecodeGroups, h1, h2]
    simp [chunk1_bytes a ha]
  | [a, b], h => by
    have ha : a < 256 := h a (by simp)
    have hb : b < 256 := h b (by simp)
    have h1 := b64Index_b64Char ((a * 65536 + b * 256) / 262144 % 64) (sextet_lt _ _)
    have h2 := b64Index_b64Char ((a * 65536 + b * 256) / 4096 % 64) (sextet_lt _ _)
    have h3 := b64Index_b64Char ((a * 65536 + b * 256) / 64 % 64) (sextet_lt _ _)
    have hne3 := b64Char_ne_eq ((a * 65536 + b * 256) / 64 % 64) (sextet_lt _ _)
    simp only [b64EncodeGroups, b64DecodeGroups, h1, h2, h3, hne3, if_false]
    simp [hne3, (chunk2_bytes a b ha hb).1, (chunk2_bytes a b ha hb).2]
  | a :: b :: c :: rest, h => by
    have ha : a < 256 := h a (by simp)
    have hb : b < 256 := h b (by simp)
    have hc : c < 256 := h c (by simp)
    have hrest : ∀ x ∈ rest, x < 256 := fun x hx => h x (by simp [hx])
    have ih := b64_decode_encode rest hrest
    have h1 := b64Index_b64Char ((a * 65536 + b * 256 + c) / 262144 % 64) (sextet_lt _ _)
    have h2 := b64Index_b64Char ((a * 65536 + b * 256 + c) / 4096 % 64) (sextet_lt _ _)
    have h3 := b64Index_b64Char ((a * 65536 + b * 256 + c) / 64 % 64) (sextet_lt _ _)
    have h4 := b64Index_b64Char ((a * 65536 + b * 256 + c) % 64) (Nat.mod_lt _ (by norm_num))
    have hne3 := b64Char_ne_eq ((a * 65536 + b * 256 + c) / 64 % 64) (sextet_lt _ _)
    have hne4 := b64Char_ne_eq ((a * 65536 + b * 256 + c) % 64) (Nat.mod_lt _ (by norm_num))
    obtain ⟨e1, e2, e3⟩ := chunk3_bytes a b c ha hb hc
    simp only [b64EncodeGroups, b64DecodeGroups, h1, h2, h3, h4, ih]
    simp [hne3, hne4, e1, e2, e3]

/-- Claim C9: a flash message set by `Flash` round-trips through
`GetFlash` on a request carrying the resulting cookie (base64 URL
encode/decode is the identity on the message bytes), and the read
expires the flash cookie (negative max-age) so a later request without
the cookie retrieves nothing. -/
theorem C9_flash_roundtrip
    (w1 w2 w3 : RespState) (r r2 : Request) (m : List Nat)
    (hbytes : ∀ x ∈ m, x < 256)
    (hr : reqCookie r DefaultFlashCookieName = some (b64EncodeString m))
    (hr2 : reqCookie r2 DefaultFlashCookieName = none) :
    (Flash w1 m).setCookies =
      w1.setCookies ++ [{ name := DefaultFlashCookieName, value := b64EncodeString m }] ∧
    (GetFlash w2 r).2 = m ∧
    (GetFlash w2 r).1.setCookies = w2.setCookies ++ [expiredFlashCookie (b64EncodeString m)] ∧
    (expiredFlashCookie (b64EncodeString m)).maxAge < 0 ∧
    GetFlash w3 r2 = (w3, []) := by
  have hdec : b64DecodeString (b64EncodeString m) = some m := by
    show b64DecodeGroups (b64EncodeGroups m) = some m
    exact b64_decode_encode m hbytes
  refine ⟨rfl, ?_, ?_, by norm_num [expiredFlashCookie], ?_⟩
  · simp only [GetFlash, hr, hdec]
  · simp only [GetFlash, hr, hdec]
  · simp only [GetFlash, hr2]

theorem C9_flash_roundtrip_witness :
    b64EncodeString [104, 105] = "aGk=" ∧
    (Flash w0 [104, 105]).setCookies = [{ name := DefaultFlashCookieName, value := "aGk=" }] ∧
    (GetFlash w0 flashReq).2 = [104, 105] ∧
    (GetFlash w0 flashReq).1.setCookies = [expiredFlashCookie "aGk="] ∧
    (expiredFlashCookie "aGk=").maxAge < 0 ∧
    GetFlash w0 markerGetReq = (w0, []) := by
  have h := C9_flash_roundtrip w0 w0 w0 flashReq markerGetReq [104, 105]
    (by decide) rfl rfl
  exact ⟨rfl, h.1, h.2.1, h.2.2.1, h.2.2.2.1, h.2.2.2.2⟩

/-! ### Registry-compilation lemmas -/

theorem lookupT_insert_self (reg : Registry) (m : String) (t : Template) :
    (lookupT ((m, t) :: reg.filter (fun p => p.1 != m)) m).isSome = true := by
  simp [lookupT, List.find?_cons]

theorem lookupT_insert_isSome (reg : Registry) (m n : String) (t : Template)
    (h : (lookupT reg n).isSome = true) :
    (lookupT ((m, t) :: reg.filter (fun p => p.1 != m)) n).isSome = true := by
  by_cases hmn : m = n
  · subst hmn
    exact lookupT_insert_self reg m t
  · have hne : (m == n) = false := by simpa using hmn
    simp only [lookupT, List.find?_cons, hne]
    rw [find?_filter_of_imp]
    · simpa [lookupT] using h
    · intro a ha
      have ha1 : a.1 = n := by simpa using ha
      simp [bne, ha1, BEq.symm_false hne]

theorem foldl_compileStep_none (parseT : String → Option Template) (exts : List String)
    (files : List (String × String)) :
    files.foldl (compileStep parseT exts) none = none := by
  induction files with
  | nil => rfl
  | cons f files ih => simpa [compileStep] using ih

theorem compile_fold_fail (parseT : String → Option Template) (exts : List String) :
    ∀ (files : List (String × String)) (acc : Option Registry),
      (∃ f ∈ files, exts.contains (fileExt f.1) = true ∧ parseT f.2 = none) →
      files.foldl (compileStep parseT exts) acc = none
  | [], _, h => by simp at h
  | f0 :: files, acc, h => by
    rw [List.foldl_cons]
    rcases h with ⟨f, hf, hext, hparse⟩
    rcases List.mem_cons.mp hf with heq | hmem
    · subst heq
      cases acc with
      | none => exact foldl_compileStep_none parseT exts files
      | some reg =>
        have hextm : fileExt f.1 ∈ exts := by simpa using hext
        have : compileStep parseT exts (some reg) f = none := by
          simp [compileStep, hextm, hparse]
        rw [this]
        exact foldl_compileStep_none parseT exts files
    · exact compile_fold_fail parseT exts files _ ⟨f, hmem, hext, hparse⟩

theorem compile_fold_ok (parseT : String → Option Template) (exts : List String) :
    ∀ (files : List (String × String)) (acc reg : Registry),
      files.foldl (compileStep parseT exts) (some acc) = some reg →
      (∀ n, (lookupT acc n).isSome = true → (lookupT reg n).isSome = true) ∧
      (∀ f ∈ files, exts.contains (fileExt f.1) = true →
         ∃ t, parseT f.2 = some t ∧ (lookupT reg (tplName f.1)).isSome = true)
  | [], acc, reg, h => by
    rw [List.foldl_nil, Option.some.injEq] at h
    subst h
    exact ⟨fun n hn => hn, fun f hf => absurd hf (List.not_mem_nil f)⟩
  | f0 :: files, acc, reg, h => by
    rw [List.foldl_cons] at h
    by_cases hext : exts.contains (fileExt f0.1) = true
    · have hextm : fileExt f0.1 ∈ exts := by simpa using hext
      cases hparse : parseT f0.2 with
      | none =>
        rw [show compileStep parseT exts (some acc) f0 = none by simp [compileStep, hextm, hparse],
          foldl_compileStep_none] at h
        cases h
      | some t =>
        have hstep : compileStep parseT exts (some acc) f0 =
            some ((tplName f0.1, t) :: acc.filter (fun p => p.1 != tplName f0.1)) := by
          simp [compileStep, hextm, hparse]
        rw [hstep] at h
        obtain ⟨hmono, hpres⟩ := compile_fold_ok parseT exts files _ reg h
        refine ⟨?_, ?_⟩
        · intro n hn
          exact hmono n (lookupT_insert_isSome acc (tplName f0.1) n t hn)
        · intro f hf hfe
          rcases List.mem_cons.mp hf with heq | hmem
          · subst heq
            exact ⟨t, hparse, hmono _ (lookupT_insert_self acc (tplName f.1) t)⟩
          · exact hpres f hmem hfe
    · have hextf : fileExt f0.1 ∉ exts := by
        intro hmem
        exact hext (by simpa using hmem)
      rw [show compileStep parseT exts (some acc) f0 = some acc by simp [compileStep, hextf]] at h
      obtain ⟨hmono, hpres⟩ := compile_fold_ok parseT exts files _ reg h
      refine ⟨hmono, ?_⟩
      intro f hf hfe
      rcases List.mem_cons.mp hf with heq | hmem
      · subst heq
        exact absurd (by simpa using hfe : fileExt f.1 ∈ exts) hextf
      · exact hpres f hmem hfe

theorem compile_fold_provenance (parseT : String → Option Template) (exts : List String) :
    ∀ (files : List (String × String)) (acc reg : Registry),
      files.foldl (compileStep parseT exts) (some acc) = some reg →
      ∀ pr ∈ reg, pr ∈ acc ∨ ∃ f ∈ files, exts.contains (fileExt f.1) = true ∧
        tplName f.1 = pr.1 ∧ parseT f.2 = some pr.2
  | [], acc, reg, h => by
    rw [List.foldl_nil, Option.some.injEq] at h
    subst h
    exact fun pr hpr => Or.inl hpr
  | f0 :: files, acc, reg, h => by
    rw [List.foldl_cons] at h
    by_cases hext : exts.contains (fileExt f0.1) = true
    · have hextm : fileExt f0.1 ∈ exts := by simpa using hext
      cases hparse : parseT f0.2 with
      | none =>
        rw [show compileStep parseT exts (some acc) f0 = none by simp [compileStep, hextm, hparse],
          foldl_compileStep_none] at h
        cases h
      | some t =>
        have hstep : compileStep parseT exts (some acc) f0 =
            some ((tplName f0.1, t) :: acc.filter (fun p => p.1 != tplName f0.1)) := by
          simp [compileStep, hextm, hparse]
        rw [hstep] at h
        intro pr hpr
        rcases compile_fold_provenance parseT exts files _ reg h pr hpr with hin | ⟨f, hf, he, hn, hp⟩
        · rcases List.mem_cons.mp hin with heq | hmem
          · subst heq
            exact Or.inr ⟨f0, List.mem_cons_self f0 files, hext, rfl, hparse⟩
          · exact Or.inl (List.mem_of_mem_filter hmem)
        · exact Or.inr ⟨f, List.mem_cons_of_mem f0 hf, he, hn, hp⟩
    · have hextf : fileExt f0.1 ∉ exts := by
        intro hmem
        exact hext (by simpa using hmem)
      rw [show compileStep parseT exts (some acc) f0 = some acc by simp [compileStep, hextf]] at h
      intro pr hpr
      rcases compile_fold_provenance parseT exts files _ reg h pr hpr with hin | ⟨f, hf, he, hn, hp⟩
      · exact Or.inl hin
      · exact Or.inr ⟨f, List.mem_cons_of_mem f0 hf, he, hn, hp⟩

/-- Claim C6: registry construction is atomic with respect to parse
failure — if any allow-listed file fails to parse, construction (and
with it a development-mode render) aborts entirely and yields no
registry; a returned registry contains a template for every allow-listed
file and nothing that did not come from one. -/
theorem C6_compile_atomic (parseT : String → Option Template) (exts : List String)
    (files : List (String × String)) :
    ((∃ f ∈ files, exts.contains (fileExt f.1) = true ∧ parseT f.2 = none) →
       compileTemplatesFromDir parseT exts files = none) ∧
    (∀ reg, compileTemplatesFromDir parseT exts files = some reg →
       (∀ f ∈ files, exts.contains (fileExt f.1) = true →
          ∃ t, parseT f.2 = some t ∧ (lookupT reg (tplName f.1)).isSome = true) ∧
       (∀ pr ∈ reg, ∃ f ∈ files, exts.contains (fileExt f.1) = true ∧
          tplName f.1 = pr.1 ∧ parseT f.2 = some pr.2)) ∧
    (compileTemplatesFromDir parseT exts files = none →
       ∀ layout fuel w status name binding flags,
         HTMLDev parseT exts files layout fuel w status name binding flags = none) := by
  refine ⟨?_, ?_, ?_⟩
  · intro hex
    exact compile_fold_fail parseT exts files (some []) hex
  · intro reg hreg
    refine ⟨(compile_fold_ok parseT exts files [] reg hreg).2, ?_⟩
    intro pr hpr
    rcases compile_fold_provenance parseT exts files [] reg hreg pr hpr with hin | hx
    · cases hin
    · exact hx
  · intro hnone layout fuel w status name binding flags
    simp [HTMLDev, hnone]

theorem C6_compile_atomic_witness :
    compileTemplatesFromDir demoParse [".html", ".tmpl"] demoFilesBad = none ∧
    HTMLDev demoParse [".html", ".tmpl"] demoFilesBad "layout" 2 w0 200 "content" (.str "d") [] = none ∧
    (∀ reg, compileTemplatesFromDir demoParse [".html", ".tmpl"] demoFilesGood = some reg →
       (lookupT reg "content").isSome = true ∧ (lookupT reg "nav").isSome = true) := by
  have hbad := C6_compile_atomic demoParse [".html", ".tmpl"] demoFilesBad
  have hnone := hbad.1 ⟨("broken.tmpl", "BAD"), by decide, by decide, by decide⟩
  refine ⟨hnone, hbad.2.2 hnone "layout" 2 w0 200 "content" (.str "d") [], ?_⟩
  intro reg hreg
  have hgood := (C6_compile_atomic demoParse [".html", ".tmpl"] demoFilesGood).2.1 reg hreg
  obtain ⟨t1, _, hl1⟩ := (hgood.1 ("content.html", "A") (by decide) (by decide))
  obtain ⟨t2, _, hl2⟩ := (hgood.1 ("nav.tmpl", "N") (by decide) (by decide))
  exact ⟨hl1, hl2⟩

end Turbo
